import Mathlib

/-!
Verification of the batch MP4-to-APNG conversion orchestrator
(src/mp4_to_apng.py) against its natural-language specification.

The script is shallowly embedded: filesystem and subprocess interaction is
abstracted into an environment record, and a run of the program (from the
module loading through the end of main) is a pure function from that
environment to an exit code, an optional summary and an ordered trace of
external effects.
Paths are modelled as lists of components, joined with "/" when rendered
into a command line.
-/

namespace Mp4ToApng

/-- Configuration constant from the source: directory containing input files. -/
def MP4_SOURCE_DIR : String := "mp4"

/-- Configuration constant from the source: directory receiving output files. -/
def APNG_EXPORT_DIR : String := "export"

/-- Configuration constant from the source: log file name. -/
def LOG_FILE : String := "conversion.log"

/-- Configuration constant from the source: the fixed ffmpeg option list. -/
def FFMPEG_OPTIONS : List String :=
  ["-vf", "fps=15,scale=320:-1:flags=lanczos", "-plays", "0", "-f", "apng", "-y"]

/-- Render a path (list of components) the way str(Path) renders it. -/
def pathStr (p : List String) : String := String.intercalate "/" p

/-- Embedding of the command list built in convert_mp4_to_apng
(source lines 91 to 96): executable, input flag and path, the fixed
options, then the output path. -/
def command (mp4_filepath apng_filepath : List String) : List String :=
  ["ffmpeg", "-i", pathStr mp4_filepath] ++ FFMPEG_OPTIONS ++ [pathStr apng_filepath]

/-- Whether a character is not the dot separating a name from its suffix. -/
def notDot (c : Char) : Bool := c ≠ '.'

/-- Embedding of pathlib Path.stem on the character list of a name: Python
takes the last dot; the suffix is what follows it provided the dot is
neither the first nor the last character, and the stem is the name with
the suffix removed. -/
def pyStemList (l : List Char) : List Char :=
  if 0 < (l.reverse.takeWhile notDot).length ∧
      (l.reverse.takeWhile notDot).length + 1 < l.reverse.length then
    (l.reverse.drop ((l.reverse.takeWhile notDot).length + 1)).reverse
  else l

/-- Embedding of pathlib Path.stem: the final component without its last
suffix. -/
def pyStem (s : String) : String := String.mk (pyStemList s.data)

/-- Embedding of the glob pattern "*.mp4" on the character list of a name:
pathlib Path.glob compiles each pattern component with fnmatch semantics,
where the star matches any sequence of characters, including the empty
sequence and sequences starting with a dot.  The pattern therefore matches
exactly the names ending in ".mp4", hidden names such as ".clip.mp4" and
the bare ".mp4" included.  Matching is case-sensitive. -/
def globMatchMp4List (l : List Char) : Bool :=
  decide (l.reverse.take 4 = ['4', 'p', 'm', '.'])

/-- Embedding of the glob pattern "*.mp4" as used by pathlib Path.glob on
the source directory (source line 154).  It looks only at the entry name,
never at the entry type. -/
def globMatchMp4 (name : String) : Bool := globMatchMp4List name.data

/-- Kind of a directory entry.  Path.glob does not inspect it. -/
inductive EntryKind where
  | file
  | directory
  | other
deriving DecidableEq, Repr

/-- One entry of the source directory: a name plus what it actually is. -/
structure Entry where
  name : String
  kind : EntryKind
deriving DecidableEq, Repr

/-- Outcome of one subprocess.run invocation of ffmpeg on a file, covering
the branches of convert_mp4_to_apng: normal exit 0, FileNotFoundError,
CalledProcessError with the nonzero return code, or any other exception. -/
inductive ConvOutcome where
  | success
  | fileNotFound
  | calledProcessError (returncode : Int)
  | unexpectedError
deriving DecidableEq, Repr

/-- Embedding of the return value of convert_mp4_to_apng: True exactly when
subprocess.run returned normally (tool exit status 0); every exception
branch returns False. -/
def convertReturns (o : ConvOutcome) : Bool :=
  match o with
  | ConvOutcome.success => true
  | _ => false

/-- The environment a run executes in: everything outside the program that
its control flow depends on.  convResult gives, for each source entry name,
what the ffmpeg invocation on that entry would do. -/
structure Env where
  ffmpegOk : Bool
  cwd : List String
  scriptDir : List String
  sourceIsDir : Bool
  exportIsDir : Bool
  mkdirOk : Bool
  entries : List Entry
  convResult : String → ConvOutcome

/-- The source directory, resolved against the script location
(source line 135: base_dir / MP4_SOURCE_DIR). -/
def sourceDirFor (env : Env) : List String := env.scriptDir ++ [MP4_SOURCE_DIR]

/-- The export directory, resolved against the script location
(source line 136: base_dir / APNG_EXPORT_DIR). -/
def exportDirFor (env : Env) : List String := env.scriptDir ++ [APNG_EXPORT_DIR]

/-- Input path passed to the converter for a discovered entry
(the glob yields source_dir / name). -/
def inputPathFor (env : Env) (name : String) : List String :=
  sourceDirFor env ++ [name]

/-- Output path for a discovered entry (source lines 170 to 171):
export_dir / (stem + ".apng"). -/
def outputPathFor (env : Env) (name : String) : List String :=
  exportDirFor env ++ [pyStem name ++ ".apng"]

/-- File discovery (source line 154): every entry of the source directory
whose name matches the pattern, with no check of the entry kind. -/
def discoveredFiles (env : Env) : List Entry :=
  env.entries.filter (fun e => globMatchMp4 e.name)

/-- An externally visible effect of the run, in the order performed. -/
inductive Effect where
  | createLogFile (p : List String)
  | checkTool
  | mkdirExport (p : List String)
  | runCommand (cmd : List String)
deriving DecidableEq, Repr

/-- Effects that write to the filesystem (file creation or truncation,
directory creation).  Running the external command is attributed to the
external tool, not to the orchestrator itself. -/
def isFsWrite : Effect → Bool
  | Effect.createLogFile _ => true
  | Effect.checkTool => false
  | Effect.mkdirExport _ => true
  | Effect.runCommand _ => false

/-- The filesystem writes contained in a trace. -/
def fsWrites (t : List Effect) : List Effect := t.filter isFsWrite

/-- Whether an effect is a converter invocation. -/
def isCommandEffect : Effect → Bool
  | Effect.runCommand _ => true
  | _ => false

/-- The converter invocations contained in a trace. -/
def commandEffects (t : List Effect) : List Effect := t.filter isCommandEffect

/-- The single invocation effect produced for one discovered entry. -/
def invocationFor (env : Env) (e : Entry) : Effect :=
  Effect.runCommand (command (inputPathFor env e.name) (outputPathFor env e.name))

/-- The summary logged at the end of a complete run
(source lines 180 to 185). -/
structure Summary where
  totalFiles : Nat
  successCount : Nat
  failureCount : Nat
  logFileLoc : List String
  exportDirLoc : List String
deriving DecidableEq, Repr

/-- Result of a run: process exit code, the summary if the summary stage
was reached, whether the no-files warning was logged, and the effect
trace. -/
structure RunResult where
  exitCode : Nat
  summary : Option Summary
  noFilesWarning : Bool
  trace : List Effect
deriving DecidableEq, Repr

/-- Embedding of the per-file loop (source lines 167 to 176): for each
file, in order, build the command, run it once, and bump exactly one of
the two counters according to the boolean returned by
convert_mp4_to_apng.  Returns (success_count, failure_count, effects). -/
def processFiles (env : Env) : List Entry → Nat × Nat × List Effect
  | [] => (0, 0, [])
  | e :: rest =>
      let r := processFiles env rest
      if convertReturns (env.convResult e.name) then
        (r.1 + 1, r.2.1, invocationFor env e :: r.2.2)
      else
        (r.1, r.2.1 + 1, invocationFor env e :: r.2.2)

/-- Embedding of a whole run, from module import (where the logging
FileHandler opens LOG_FILE, relative to the current working directory,
with mode w) through main.  Mirrors the control flow of source lines
125 to 191. -/
def run (env : Env) : RunResult :=
  let pre : List Effect :=
    [Effect.createLogFile (env.cwd ++ [LOG_FILE]), Effect.checkTool]
  if !env.ffmpegOk then
    { exitCode := 1, summary := none, noFilesWarning := false, trace := pre }
  else if !env.sourceIsDir then
    { exitCode := 1, summary := none, noFilesWarning := false, trace := pre }
  else
    let mkEffs : List Effect :=
      if env.exportIsDir then [] else [Effect.mkdirExport (exportDirFor env)]
    if !env.exportIsDir && !env.mkdirOk then
      { exitCode := 1, summary := none, noFilesWarning := false, trace := pre ++ mkEffs }
    else
      let files := discoveredFiles env
      if files.isEmpty then
        { exitCode := 0, summary := none, noFilesWarning := true, trace := pre ++ mkEffs }
      else
        let r := processFiles env files
        { exitCode := if r.2.1 > 0 then 1 else 0
          summary := some
            { totalFiles := files.length
              successCount := r.1
              failureCount := r.2.1
              logFileLoc := env.scriptDir ++ [LOG_FILE]
              exportDirLoc := exportDirFor env }
          noFilesWarning := false
          trace := pre ++ mkEffs ++ r.2.2 }

/-! ## Basic lemmas about the loop and the run -/

/-- Each discovered file bumps exactly one of the two counters, so the
counters always sum to the number of files processed. -/
theorem processFiles_counts (env : Env) (l : List Entry) :
    (processFiles env l).1 + (processFiles env l).2.1 = l.length := by
  induction l with
  | nil => rfl
  | cons e rest ih =>
      simp only [processFiles]
      split
      · simpa [Nat.add_assoc, Nat.add_comm, Nat.add_left_comm] using congrArg (· + 1) ih
      · simpa [Nat.add_assoc] using congrArg (· + 1) ih

/-- The loop performs exactly one invocation per file, in list order,
whatever the outcomes are. -/
theorem processFiles_effects (env : Env) (l : List Entry) :
    (processFiles env l).2.2 = l.map (invocationFor env) := by
  induction l with
  | nil => rfl
  | cons e rest ih =>
      simp only [processFiles, List.map_cons]
      split <;> simp [ih]

/-- The loop ignores the current working directory. -/
theorem processFiles_cwd (env : Env) (c : List String) (l : List Entry) :
    processFiles { env with cwd := c } l = processFiles env l := by
  induction l with
  | nil => rfl
  | cons e rest ih => simp only [processFiles, ih]; rfl

/-- Discovery ignores the current working directory. -/
theorem discoveredFiles_cwd (env : Env) (c : List String) :
    discoveredFiles { env with cwd := c } = discoveredFiles env := rfl

/-- Shape of a run that fails the ffmpeg availability check
(source lines 130 to 131). -/
theorem run_ffmpeg_fail (env : Env) (h : env.ffmpegOk = false) :
    run env =
      { exitCode := 1, summary := none, noFilesWarning := false,
        trace := [Effect.createLogFile (env.cwd ++ [LOG_FILE]), Effect.checkTool] } := by
  simp [run, h]

/-- Shape of a run that fails the source directory check
(source lines 141 to 143). -/
theorem run_source_missing (env : Env) (h1 : env.ffmpegOk = true)
    (h2 : env.sourceIsDir = false) :
    run env =
      { exitCode := 1, summary := none, noFilesWarning := false,
        trace := [Effect.createLogFile (env.cwd ++ [LOG_FILE]), Effect.checkTool] } := by
  simp [run, h1, h2]

/-- Shape of a run where creating the export directory fails
(source lines 145 to 151). -/
theorem run_mkdir_fail (env : Env) (h1 : env.ffmpegOk = true)
    (h2 : env.sourceIsDir = true) (h3 : env.exportIsDir = false)
    (h4 : env.mkdirOk = false) :
    run env =
      { exitCode := 1, summary := none, noFilesWarning := false,
        trace := [Effect.createLogFile (env.cwd ++ [LOG_FILE]), Effect.checkTool,
          Effect.mkdirExport (exportDirFor env)] } := by
  simp [run, h1, h2, h3, h4]

/-- Shape of a run that finds no matching files (source lines 156 to 159). -/
theorem run_no_files (env : Env) (h1 : env.ffmpegOk = true)
    (h2 : env.sourceIsDir = true) (h3 : (env.exportIsDir || env.mkdirOk) = true)
    (h4 : discoveredFiles env = []) :
    run env =
      { exitCode := 0, summary := none, noFilesWarning := true,
        trace := [Effect.createLogFile (env.cwd ++ [LOG_FILE]), Effect.checkTool] ++
          (if env.exportIsDir then [] else [Effect.mkdirExport (exportDirFor env)]) } := by
  rcases Bool.or_eq_true_iff.mp h3 with he | hm
  · simp [run, h1, h2, he, h4]
  · cases he : env.exportIsDir <;> simp [run, h1, h2, he, hm, h4]

/-- Shape of a run that reaches the per-file loop and the summary
(source lines 161 to 191). -/
theorem run_process (env : Env) (h1 : env.ffmpegOk = true)
    (h2 : env.sourceIsDir = true) (h3 : (env.exportIsDir || env.mkdirOk) = true)
    (h4 : discoveredFiles env ≠ []) :
    run env =
      { exitCode :=
          if (processFiles env (discoveredFiles env)).2.1 > 0 then 1 else 0
        summary := some
          { totalFiles := (discoveredFiles env).length
            successCount := (processFiles env (discoveredFiles env)).1
            failureCount := (processFiles env (discoveredFiles env)).2.1
            logFileLoc := env.scriptDir ++ [LOG_FILE]
            exportDirLoc := exportDirFor env }
        noFilesWarning := false
        trace := [Effect.createLogFile (env.cwd ++ [LOG_FILE]), Effect.checkTool] ++
          (if env.exportIsDir then [] else [Effect.mkdirExport (exportDirFor env)]) ++
          (processFiles env (discoveredFiles env)).2.2 } := by
  have h4' : (discoveredFiles env).isEmpty = false := by
    cases hd : discoveredFiles env with
    | nil => exact absurd hd h4
    | cons a l => simp [hd]
  rcases Bool.or_eq_true_iff.mp h3 with he | hm
  · simp [run, h1, h2, he, h4']
  · cases he : env.exportIsDir <;> simp [run, h1, h2, he, hm, h4']

/-! ## Claim theorems -/

/-- C1: any run that reaches the end of the processing loop exits with
code 0 when failureCount is 0 and 1 when failureCount is positive; the
no-files case exits 0; and each fatal precondition (tool unavailable,
source directory missing, export directory creation failure) exits 1. -/
theorem exit_code_policy (env : Env) :
    (∀ s : Summary, (run env).summary = some s →
        (run env).exitCode = (if s.failureCount = 0 then 0 else 1))
  ∧ (env.ffmpegOk = true → env.sourceIsDir = true →
      (env.exportIsDir || env.mkdirOk) = true → discoveredFiles env = [] →
      (run env).exitCode = 0)
  ∧ (env.ffmpegOk = false → (run env).exitCode = 1)
  ∧ (env.ffmpegOk = true → env.sourceIsDir = false → (run env).exitCode = 1)
  ∧ (env.ffmpegOk = true → env.sourceIsDir = true → env.exportIsDir = false →
      env.mkdirOk = false → (run env).exitCode = 1) := by
  refine ⟨?_, ?_, ?_, ?_, ?_⟩
  · intro s hs
    by_cases h1 : env.ffmpegOk = true
    · by_cases h2 : env.sourceIsDir = true
      · by_cases h3 : (env.exportIsDir || env.mkdirOk) = true
        · by_cases h4 : discoveredFiles env = []
          · rw [run_no_files env h1 h2 h3 h4] at hs
            exact absurd hs (by simp)
          · rw [run_process env h1 h2 h3 h4] at hs ⊢
            simp only [Option.some.injEq] at hs
            subst hs
            rcases Nat.eq_zero_or_pos (processFiles env (discoveredFiles env)).2.1 with hz | hz
            · simp [hz]
            · simp [hz, Nat.pos_iff_ne_zero.mp hz]
        · have he : env.exportIsDir = false := by
            cases he' : env.exportIsDir
            · rfl
            · exact absurd (by simp [he']) h3
          have hm : env.mkdirOk = false := by
            cases hm' : env.mkdirOk
            · rfl
            · exact absurd (by simp [he, hm']) h3
          rw [run_mkdir_fail env h1 h2 he hm] at hs
          exact absurd hs (by simp)
      · rw [run_source_missing env h1 (Bool.not_eq_true _ ▸ h2)] at hs
        exact absurd hs (by simp)
    · rw [run_ffmpeg_fail env (Bool.not_eq_true _ ▸ h1)] at hs
      exact absurd hs (by simp)
  · intro h1 h2 h3 h4
    rw [run_no_files env h1 h2 h3 h4]
  · intro h
    rw [run_ffmpeg_fail env h]
  · intro h1 h2
    rw [run_source_missing env h1 h2]
  · intro h1 h2 h3 h4
    rw [run_mkdir_fail env h1 h2 h3 h4]

/-- Environment used to instantiate theorems with hypotheses: ffmpeg is
available, both directories exist, and the source directory holds one
convertible file, one file the tool rejects, and one subdirectory whose
name also matches the pattern. -/
def envDemo : Env :=
  { ffmpegOk := true
    cwd := ["home", "user"]
    scriptDir := ["opt", "app"]
    sourceIsDir := true
    exportIsDir := true
    mkdirOk := true
    entries := [⟨"clip_a.mp4", EntryKind.file⟩, ⟨"clip_b.mp4", EntryKind.file⟩,
      ⟨"sub.mp4", EntryKind.directory⟩, ⟨"readme.txt", EntryKind.file⟩]
    convResult := fun n =>
      if n = "clip_a.mp4" then ConvOutcome.success
      else ConvOutcome.calledProcessError 1 }

/-- Witness for C1: instantiating the exit code policy on a failing run. -/
theorem exit_code_policy_witness :
    { envDemo with ffmpegOk := false }.ffmpegOk = false ∧
      (run { envDemo with ffmpegOk := false }).exitCode = 1 :=
  ⟨rfl, (exit_code_policy { envDemo with ffmpegOk := false }).2.2.1 rfl⟩

/-- C2: whenever the summary stage is reached, the success and failure
counters sum exactly to the number of discovered files. -/
theorem summary_invariant (env : Env) (s : Summary)
    (h : (run env).summary = some s) :
    s.successCount + s.failureCount = s.totalFiles := by
  by_cases h1 : env.ffmpegOk = true
  · by_cases h2 : env.sourceIsDir = true
    · by_cases h3 : (env.exportIsDir || env.mkdirOk) = true
      · by_cases h4 : discoveredFiles env = []
        · rw [run_no_files env h1 h2 h3 h4] at h
          exact absurd h (by simp)
        · rw [run_process env h1 h2 h3 h4] at h
          simp only [Option.some.injEq] at h
          subst h
          exact processFiles_counts env (discoveredFiles env)
      · have he : env.exportIsDir = false := by
          cases he' : env.exportIsDir
          · rfl
          · exact absurd (by simp [he']) h3
        have hm : env.mkdirOk = false := by
          cases hm' : env.mkdirOk
          · rfl
          · exact absurd (by simp [he, hm']) h3
        rw [run_mkdir_fail env h1 h2 he hm] at h
        exact absurd h (by simp)
    · rw [run_source_missing env h1 (Bool.not_eq_true _ ▸ h2)] at h
      exact absurd h (by simp)
  · rw [run_ffmpeg_fail env (Bool.not_eq_true _ ▸ h1)] at h
    exact absurd h (by simp)

/-- Witness for C2: the demo run reaches the summary with 1 + 2 = 3. -/
theorem summary_invariant_witness :
    ∃ s : Summary, (run envDemo).summary = some s ∧
      s.successCount + s.failureCount = s.totalFiles := by
  have h : (run envDemo).summary = some
      (Summary.mk 3 1 2 ["opt", "app", "conversion.log"] ["opt", "app", "export"]) := by
    decide
  exact ⟨_, h, summary_invariant envDemo _ h⟩

/-- Filtering a list of invocations for invocations keeps all of them. -/
theorem commandEffects_map_invocation (env : Env) (l : List Entry) :
    commandEffects (l.map (invocationFor env)) = l.map (invocationFor env) := by
  induction l with
  | nil => rfl
  | cons e rest ih =>
      simp only [List.map_cons, commandEffects, List.filter_cons, invocationFor,
        isCommandEffect] at ih ⊢
      simp [ih]

/-- C3: whenever the per-file loop is reached, the run completes with a
summary, and the trace holds exactly one converter invocation per
discovered file, in discovery order; and this invocation list is the same
for every possible per-file outcome assignment, so no failure of one file
can abort the run or suppress a later file, and no file is retried. -/
theorem per_file_isolation (env : Env) (h1 : env.ffmpegOk = true)
    (h2 : env.sourceIsDir = true) (h3 : (env.exportIsDir || env.mkdirOk) = true)
    (h4 : discoveredFiles env ≠ []) :
    (∃ s : Summary, (run env).summary = some s)
  ∧ commandEffects (run env).trace = (discoveredFiles env).map (invocationFor env)
  ∧ ∀ g : String → ConvOutcome,
      commandEffects (run { env with convResult := g }).trace
        = (discoveredFiles env).map (invocationFor env) := by
  have hmain : ∀ g : String → ConvOutcome,
      commandEffects (run { env with convResult := g }).trace
        = (discoveredFiles env).map (invocationFor env) := by
    intro g
    have h4g : discoveredFiles { env with convResult := g } ≠ [] := h4
    rw [run_process { env with convResult := g } h1 h2 h3 h4g]
    simp only [commandEffects, List.filter_append]
    have hinv : invocationFor { env with convResult := g } = invocationFor env := rfl
    have hd : discoveredFiles { env with convResult := g } = discoveredFiles env := rfl
    rw [processFiles_effects { env with convResult := g }
      (discoveredFiles { env with convResult := g }), hinv, hd]
    have hall := commandEffects_map_invocation env (discoveredFiles env)
    simp only [commandEffects] at hall
    rw [hall]
    cases env.exportIsDir <;> simp [isCommandEffect]
  refine ⟨?_, ?_, hmain⟩
  · rw [run_process env h1 h2 h3 h4]
    exact ⟨_, rfl⟩
  · have := hmain env.convResult
    simpa using this

/-- Witness for C3: the demo environment with three matching entries. -/
theorem per_file_isolation_witness :
    commandEffects (run envDemo).trace
      = (discoveredFiles envDemo).map (invocationFor envDemo) :=
  (per_file_isolation envDemo rfl rfl rfl (by decide)).2.1

/-- C4: the external command is the exact ordered sequence: the tool name,
the input flag and input path, the fixed literal option list (frame rate
15, width 320 with automatic height, lanczos resampling, loop forever,
forced apng format, overwrite without prompting), then the output path as
the final argument. -/
theorem command_exact (inp out : List String) :
    command inp out =
      ["ffmpeg", "-i", pathStr inp, "-vf", "fps=15,scale=320:-1:flags=lanczos",
       "-plays", "0", "-f", "apng", "-y", pathStr out] := rfl

/-- A false disjunction of booleans makes both false. -/
theorem both_false_of_not_or (a b : Bool) (h : ¬((a || b) = true)) :
    a = false ∧ b = false := by
  cases a <;> cases b <;> simp_all

/-- Environment in which the ffmpeg availability check fails. -/
def envToolMissing : Env := { envDemo with ffmpegOk := false }

/-- C5 counterexample: a run whose tool availability check fails still
performs a filesystem write before aborting, namely the creation or
truncation of the log file done by the logging setup at module import
time, so the claim that no filesystem write occurs is false. -/
theorem tool_check_no_fs_counterexample :
    envToolMissing.ffmpegOk = false ∧ (run envToolMissing).exitCode = 1
  ∧ fsWrites (run envToolMissing).trace
      = [Effect.createLogFile ["home", "user", "conversion.log"]] := by decide

/-- C5 amended: when the tool check fails the run exits with code 1 having
created no export directory and run no converter invocation; the only
filesystem write in the whole run is the import-time creation or
truncation of the log file in the current working directory. -/
theorem tool_check_abort (env : Env) (h : env.ffmpegOk = false) :
    (run env).exitCode = 1
  ∧ (run env).trace
      = [Effect.createLogFile (env.cwd ++ [LOG_FILE]), Effect.checkTool]
  ∧ fsWrites (run env).trace = [Effect.createLogFile (env.cwd ++ [LOG_FILE])]
  ∧ commandEffects (run env).trace = [] := by
  rw [run_ffmpeg_fail env h]
  refine ⟨rfl, rfl, ?_, ?_⟩ <;>
    simp [fsWrites, commandEffects, isFsWrite, isCommandEffect]

/-- Witness for the amended C5 at a concrete environment. -/
theorem tool_check_abort_witness :
    (run envToolMissing).exitCode = 1
  ∧ (run envToolMissing).trace
      = [Effect.createLogFile (envToolMissing.cwd ++ [LOG_FILE]), Effect.checkTool]
  ∧ fsWrites (run envToolMissing).trace
      = [Effect.createLogFile (envToolMissing.cwd ++ [LOG_FILE])]
  ∧ commandEffects (run envToolMissing).trace = [] :=
  tool_check_abort envToolMissing rfl

/-- Environment in which everything is healthy but no entry matches. -/
def envNoFiles : Env := { envDemo with entries := [⟨"readme.txt", EntryKind.file⟩] }

/-- C6 counterexample: with zero matching input files the process exits 0
after the warning, but no summary exists at all: the code exits in the
no-files branch before the summary stage, so no summary reporting
totalFiles = 0 is produced. -/
theorem no_files_summary_counterexample :
    discoveredFiles envNoFiles = [] ∧ (run envNoFiles).exitCode = 0
  ∧ (run envNoFiles).noFilesWarning = true
  ∧ (run envNoFiles).summary = none := by decide

/-- C6 amended: with zero matching input files the run logs the no-files
warning, performs no converter invocation, and exits with code 0; it
terminates before the summary stage, so no summary is reported. -/
theorem no_files_exit (env : Env) (h1 : env.ffmpegOk = true)
    (h2 : env.sourceIsDir = true) (h3 : (env.exportIsDir || env.mkdirOk) = true)
    (h4 : discoveredFiles env = []) :
    (run env).exitCode = 0 ∧ (run env).noFilesWarning = true
  ∧ commandEffects (run env).trace = [] ∧ (run env).summary = none := by
  rw [run_no_files env h1 h2 h3 h4]
  refine ⟨rfl, rfl, ?_, rfl⟩
  cases env.exportIsDir <;> simp [commandEffects, isCommandEffect]

/-- Witness for the amended C6 at a concrete environment. -/
theorem no_files_exit_witness :
    (run envNoFiles).exitCode = 0 ∧ (run envNoFiles).noFilesWarning = true
  ∧ commandEffects (run envNoFiles).trace = []
  ∧ (run envNoFiles).summary = none :=
  no_files_exit envNoFiles rfl rfl rfl (by decide)

/-- The whole run depends on the working directory only through the first
trace element, the import-time creation of the log file. -/
theorem run_cwd (env : Env) (c : List String) :
    run { env with cwd := c } =
      { exitCode := (run env).exitCode
        summary := (run env).summary
        noFilesWarning := (run env).noFilesWarning
        trace := Effect.createLogFile (c ++ [LOG_FILE]) :: (run env).trace.tail } := by
  by_cases h1 : env.ffmpegOk = true
  · by_cases h2 : env.sourceIsDir = true
    · by_cases h3 : (env.exportIsDir || env.mkdirOk) = true
      · by_cases h4 : discoveredFiles env = []
        · rw [run_no_files { env with cwd := c } h1 h2 h3 h4,
            run_no_files env h1 h2 h3 h4]
          simp [exportDirFor]
        · rw [run_process { env with cwd := c } h1 h2 h3 h4,
            run_process env h1 h2 h3 h4]
          simp [exportDirFor, discoveredFiles_cwd, processFiles_cwd]
      · obtain ⟨he, hm⟩ := both_false_of_not_or _ _ h3
        rw [run_mkdir_fail { env with cwd := c } h1 h2 he hm,
          run_mkdir_fail env h1 h2 he hm]
        simp [exportDirFor]
    · have h2' : env.sourceIsDir = false := Bool.not_eq_true _ ▸ h2
      rw [run_source_missing { env with cwd := c } h1 h2',
        run_source_missing env h1 h2']
      simp
  · have h1' : env.ffmpegOk = false := Bool.not_eq_true _ ▸ h1
    rw [run_ffmpeg_fail { env with cwd := c } h1',
      run_ffmpeg_fail env h1']
    simp

/-- Environments differing only in the working directory. -/
def envCwdA : Env := { envDemo with cwd := ["home", "alice"] }

/-- Second environment of the pair, with another working directory. -/
def envCwdB : Env := { envCwdA with cwd := ["tmp"] }

/-- C7 counterexample: two runs identical except for the current working
directory do not behave identically: the traces differ, because the log
file (a configured relative file name) is opened relative to the working
directory, not the script location. -/
theorem cwd_independence_counterexample :
    envCwdB = { envCwdA with cwd := ["tmp"] }
  ∧ run envCwdA ≠ run envCwdB
  ∧ (run envCwdA).trace.head?
      = some (Effect.createLogFile ["home", "alice", "conversion.log"])
  ∧ (run envCwdB).trace.head?
      = some (Effect.createLogFile ["tmp", "conversion.log"]) := by
  refine ⟨rfl, ?_, ?_, ?_⟩ <;> decide

/-- C7 amended: exit code, summary, warning flag, and every effect after
the first are independent of the working directory; the source and export
directories are resolved against the script location only.  The sole
working-directory dependence is the location of the log file created by
the import-time logging setup. -/
theorem cwd_independence (env : Env) (c1 c2 : List String) :
    (run { env with cwd := c1 }).exitCode = (run { env with cwd := c2 }).exitCode
  ∧ (run { env with cwd := c1 }).summary = (run { env with cwd := c2 }).summary
  ∧ (run { env with cwd := c1 }).noFilesWarning
      = (run { env with cwd := c2 }).noFilesWarning
  ∧ (run { env with cwd := c1 }).trace.tail = (run { env with cwd := c2 }).trace.tail
  ∧ (run { env with cwd := c1 }).trace.head?
      = some (Effect.createLogFile (c1 ++ [LOG_FILE]))
  ∧ (run { env with cwd := c2 }).trace.head?
      = some (Effect.createLogFile (c2 ++ [LOG_FILE])) := by
  rw [run_cwd env c1, run_cwd env c2]
  exact ⟨rfl, rfl, rfl, rfl, rfl, rfl⟩

/-- For a name matched by the glob other than the bare ".mp4", the Python
stem is exactly the name with the trailing ".mp4" removed: appending
".mp4" to the stem gives the name back.  The bare ".mp4" is excluded
because Python treats a dot in the first position as starting no suffix,
so its stem is the whole name. -/
theorem pyStemList_mp4 (l : List Char) (h : globMatchMp4List l = true)
    (hne : l ≠ ['.', 'm', 'p', '4']) :
    pyStemList l ++ ['.', 'm', 'p', '4'] = l := by
  unfold globMatchMp4List at h
  rw [decide_eq_true_eq] at h
  have hsplit : l.reverse = ['4', 'p', 'm', '.'] ++ l.reverse.drop 4 := by
    conv_lhs => rw [← List.take_append_drop 4 l.reverse]
    rw [h]
  set rest := l.reverse.drop 4 with hrest_def
  have hl : l = rest.reverse ++ ['.', 'm', 'p', '4'] := by
    have h0 := congrArg List.reverse hsplit
    rw [List.reverse_reverse, List.reverse_append] at h0
    exact h0
  have hrest_ne : rest ≠ [] := by
    intro hnil
    rw [hnil] at hl
    simp only [List.reverse_nil, List.nil_append] at hl
    exact hne hl
  have hlen : 0 < rest.length := List.length_pos.mpr hrest_ne
  unfold pyStemList
  rw [hsplit]
  simp only [List.cons_append, List.nil_append]
  have htw : List.takeWhile notDot ('4' :: 'p' :: 'm' :: '.' :: rest) = ['4', 'p', 'm'] := rfl
  rw [htw]
  have hcond : 0 < (['4', 'p', 'm'] : List Char).length ∧
      (['4', 'p', 'm'] : List Char).length + 1 <
        ('4' :: 'p' :: 'm' :: '.' :: rest).length := by
    constructor
    · simp
    · simp only [List.length_cons, List.length_nil]
      omega
  rw [if_pos hcond]
  have hdrop : List.drop ((['4', 'p', 'm'] : List Char).length + 1)
      ('4' :: 'p' :: 'm' :: '.' :: rest) = rest := rfl
  rw [hdrop]
  exact hl.symm

/-- Environment whose source directory holds a single file named exactly
".mp4", a name the fnmatch-style pattern really matches. -/
def envHidden : Env := { envDemo with entries := [Entry.mk ".mp4" EntryKind.file] }

/-- C8 counterexample: a file named exactly ".mp4" is discovered by the
pattern, yet its output is ".mp4.apng", not the base name without its
extension plus ".apng": Python treats a leading dot as starting no
suffix, so the stem of ".mp4" is the whole name and appending ".mp4" to
the stem does not give the name back. -/
theorem output_path_counterexample :
    discoveredFiles envHidden = [Entry.mk ".mp4" EntryKind.file]
  ∧ invocationFor envHidden (Entry.mk ".mp4" EntryKind.file) ∈ (run envHidden).trace
  ∧ outputPathFor envHidden ".mp4" = exportDirFor envHidden ++ [".mp4.apng"]
  ∧ pyStem ".mp4" ++ ".mp4" ≠ ".mp4" := by decide

/-- C8 amended: the output path is the export directory joined with the
Python stem of the input name plus ".apng", and the derivation is a pure
function of the export directory and the input name, so equal inputs give
equal outputs.  For every matched name other than the bare ".mp4" the
stem is exactly the name with its ".mp4" extension removed; the bare
".mp4" keeps its whole name as the stem. -/
theorem output_path_derivation (env : Env) (name : String)
    (h : globMatchMp4 name = true) :
    outputPathFor env name = exportDirFor env ++ [pyStem name ++ ".apng"]
  ∧ (name ≠ ".mp4" → pyStem name ++ ".mp4" = name)
  ∧ ∀ env2 : Env, env2.scriptDir = env.scriptDir →
      outputPathFor env2 name = outputPathFor env name := by
  refine ⟨rfl, ?_, ?_⟩
  · intro hname
    obtain ⟨l⟩ := name
    have hlne : l ≠ ['.', 'm', 'p', '4'] := fun h0 => hname (by rw [h0])
    have hl := pyStemList_mp4 l h hlne
    show String.mk (pyStemList l) ++ String.mk ['.', 'm', 'p', '4'] = String.mk l
    have happ : String.mk (pyStemList l) ++ String.mk ['.', 'm', 'p', '4']
        = String.mk (pyStemList l ++ ['.', 'm', 'p', '4']) := rfl
    rw [happ, hl]
  · intro env2 h2
    unfold outputPathFor exportDirFor
    rw [h2]

/-- Witness for the amended C8 at the concrete name of the demo
environment. -/
theorem output_path_derivation_witness :
    globMatchMp4 "clip_a.mp4" = true
  ∧ outputPathFor envDemo "clip_a.mp4"
      = exportDirFor envDemo ++ [pyStem "clip_a.mp4" ++ ".apng"]
  ∧ pyStem "clip_a.mp4" ++ ".mp4" = "clip_a.mp4" := by
  have h := output_path_derivation envDemo "clip_a.mp4" (by decide)
  exact ⟨by decide, h.1, h.2.1 (by decide)⟩

/-- C9: discovery matches on the entry name only: any entry of the source
directory whose name matches the pattern is discovered whatever its kind
(file, directory or other), receives a converter invocation in the trace,
and is counted in the summary total. -/
theorem discovery_ignores_kind (env : Env) (e : Entry)
    (h1 : env.ffmpegOk = true) (h2 : env.sourceIsDir = true)
    (h3 : (env.exportIsDir || env.mkdirOk) = true)
    (hmem : e ∈ env.entries) (hmatch : globMatchMp4 e.name = true) :
    e ∈ discoveredFiles env
  ∧ (∀ k : EntryKind, Entry.mk e.name k ∈ env.entries →
      Entry.mk e.name k ∈ discoveredFiles env)
  ∧ invocationFor env e ∈ (run env).trace
  ∧ ∃ s : Summary, (run env).summary = some s
      ∧ s.totalFiles = (discoveredFiles env).length := by
  have hd : e ∈ discoveredFiles env := List.mem_filter.mpr ⟨hmem, hmatch⟩
  have h4 : discoveredFiles env ≠ [] := by
    intro h0
    rw [h0] at hd
    exact absurd hd (List.not_mem_nil e)
  refine ⟨hd, ?_, ?_, ?_⟩
  · intro k hk
    exact List.mem_filter.mpr ⟨hk, hmatch⟩
  · rw [run_process env h1 h2 h3 h4]
    simp only [List.append_assoc, List.mem_append]
    right; right
    rw [processFiles_effects env (discoveredFiles env)]
    exact List.mem_map_of_mem _ hd
  · rw [run_process env h1 h2 h3 h4]
    exact ⟨_, rfl, rfl⟩

/-- Witness for C9: the demo source directory holds a subdirectory named
like an input file; it is discovered and invoked all the same.  A hidden
entry named ".mp4" is likewise discovered, since the pattern matches it. -/
theorem discovery_ignores_kind_witness :
    (Entry.mk "sub.mp4" EntryKind.directory) ∈ discoveredFiles envDemo
  ∧ invocationFor envDemo (Entry.mk "sub.mp4" EntryKind.directory)
      ∈ (run envDemo).trace
  ∧ (Entry.mk ".mp4" EntryKind.file) ∈ discoveredFiles envHidden := by
  have h := discovery_ignores_kind envDemo (Entry.mk "sub.mp4" EntryKind.directory)
    rfl rfl rfl (by decide) (by decide)
  have h2 := discovery_ignores_kind envHidden (Entry.mk ".mp4" EntryKind.file)
    rfl rfl rfl (by decide) (by decide)
  exact ⟨h.1, h.2.2.1, h2.1⟩

/-- C10: every run starts by creating or truncating the log file, resolved
against the current working directory, before the tool check and anything
else; any summary nevertheless reports the log location as the script
directory joined with the same name, a different path whenever the two
directories differ. -/
theorem log_file_location (env : Env) :
    (run env).trace.take 2
      = [Effect.createLogFile (env.cwd ++ [LOG_FILE]), Effect.checkTool]
  ∧ (∀ s : Summary, (run env).summary = some s →
      s.logFileLoc = env.scriptDir ++ [LOG_FILE])
  ∧ (env.cwd ≠ env.scriptDir →
      env.cwd ++ [LOG_FILE] ≠ env.scriptDir ++ [LOG_FILE]) := by
  refine ⟨?_, ?_, ?_⟩
  · by_cases h1 : env.ffmpegOk = true
    · by_cases h2 : env.sourceIsDir = true
      · by_cases h3 : (env.exportIsDir || env.mkdirOk) = true
        · by_cases h4 : discoveredFiles env = []
          · rw [run_no_files env h1 h2 h3 h4]
            simp [List.take]
          · rw [run_process env h1 h2 h3 h4]
            simp [List.take]
        · obtain ⟨he, hm⟩ := both_false_of_not_or _ _ h3
          rw [run_mkdir_fail env h1 h2 he hm]
          simp [List.take]
      · rw [run_source_missing env h1 (Bool.not_eq_true _ ▸ h2)]
        simp [List.take]
    · rw [run_ffmpeg_fail env (Bool.not_eq_true _ ▸ h1)]
      simp [List.take]
  · intro s hs
    by_cases h1 : env.ffmpegOk = true
    · by_cases h2 : env.sourceIsDir = true
      · by_cases h3 : (env.exportIsDir || env.mkdirOk) = true
        · by_cases h4 : discoveredFiles env = []
          · rw [run_no_files env h1 h2 h3 h4] at hs
            exact absurd hs (by simp)
          · rw [run_process env h1 h2 h3 h4] at hs
            simp only [Option.some.injEq] at hs
            subst hs
            rfl
        · obtain ⟨he, hm⟩ := both_false_of_not_or _ _ h3
          rw [run_mkdir_fail env h1 h2 he hm] at hs
          exact absurd hs (by simp)
      · rw [run_source_missing env h1 (Bool.not_eq_true _ ▸ h2)] at hs
        exact absurd hs (by simp)
    · rw [run_ffmpeg_fail env (Bool.not_eq_true _ ▸ h1)] at hs
      exact absurd hs (by simp)
  · intro hne hcon
    exact hne (List.append_left_injective [LOG_FILE] hcon)

/-- Witness for C10: in the demo environment the working directory and the
script directory differ, so the log file written at startup is not at the
location the summary reports. -/
theorem log_file_location_witness :
    (run envDemo).trace.take 2
      = [Effect.createLogFile (envDemo.cwd ++ [LOG_FILE]), Effect.checkTool]
  ∧ envDemo.cwd ++ [LOG_FILE] ≠ envDemo.scriptDir ++ [LOG_FILE] :=
  ⟨(log_file_location envDemo).1, (log_file_location envDemo).2.2 (by decide)⟩

end Mp4ToApng
